import Mathlib

/-!
Verification of the IaC Drift Detection Engine.

Shallow embedding of `src/mcp_tools/iac_drift_detector/core_logic/drift_engine.py`,
`.../core_logic/remediation.py` and the data model in `.../models.py`, together with
proofs settling the frozen claims about the drift engine.

Modelling conventions:
* Python attribute values (the untyped `Any` in `attributes: Dict[str, Any]`) are
  embedded as the JSON-like inductive `Value`; Python `None` is `Value.vNull`.
* Python `dict`s are embedded as association lists `List (String × Value)` in
  insertion order; `dict.get` is `lookupKey`+default, dict-comprehension insertion
  (later entries overwrite earlier ones, keeping the original position) is
  `dictInsert`.  Python `set` union iteration (drift_engine.py line 60-62) is
  modelled as iteration over the deduplicated concatenation of the two key lists:
  the spec only guarantees an arbitrary-but-deterministic order, and no claim
  depends on the order.
* Python `!=` is embedded as decidable structural inequality of `Value`
  (spec §9: "equality must be deep structural equality matching the source's
  loose `!=` semantics").
* The only reachable exception in the two functions (the unguarded
  `drift_info.actual_resource.type` access in remediation.py line 54) is embedded
  by giving `suggest_remediation` the return type `Option (List String)`, `none`
  standing for the `AttributeError`.
-/

/-- JSON-like attribute value, embedding Python's untyped attribute values
(`models.py`: `attributes: Dict[str, Any]`).  `vNull` is Python `None`;
`vDict` keeps entries in insertion order. -/
inductive Value where
  | vNull : Value
  | vBool : Bool → Value
  | vInt : Int → Value
  | vStr : String → Value
  | vList : List Value → Value
  | vDict : List (String × Value) → Value

mutual

/-- Decidable structural equality on `Value` (Python's `==`/`!=` on attribute
values, spec §9: deep structural equality, no coercion). -/
def Value.decEq : (a b : Value) → Decidable (a = b)
  | .vNull, .vNull => .isTrue rfl
  | .vBool a, .vBool b =>
    if h : a = b then .isTrue (h ▸ rfl) else .isFalse (fun hh => h (by injection hh))
  | .vInt a, .vInt b =>
    if h : a = b then .isTrue (h ▸ rfl) else .isFalse (fun hh => h (by injection hh))
  | .vStr a, .vStr b =>
    if h : a = b then .isTrue (h ▸ rfl) else .isFalse (fun hh => h (by injection hh))
  | .vList as, .vList bs =>
    match Value.decEqList as bs with
    | .isTrue h => .isTrue (h ▸ rfl)
    | .isFalse h => .isFalse (fun hh => h (by injection hh))
  | .vDict as, .vDict bs =>
    match Value.decEqEntries as bs with
    | .isTrue h => .isTrue (h ▸ rfl)
    | .isFalse h => .isFalse (fun hh => h (by injection hh))
  | .vNull, .vBool _ => .isFalse (fun h => nomatch h)
  | .vNull, .vInt _ => .isFalse (fun h => nomatch h)
  | .vNull, .vStr _ => .isFalse (fun h => nomatch h)
  | .vNull, .vList _ => .isFalse (fun h => nomatch h)
  | .vNull, .vDict _ => .isFalse (fun h => nomatch h)
  | .vBool _, .vNull => .isFalse (fun h => nomatch h)
  | .vBool _, .vInt _ => .isFalse (fun h => nomatch h)
  | .vBool _, .vStr _ => .isFalse (fun h => nomatch h)
  | .vBool _, .vList _ => .isFalse (fun h => nomatch h)
  | .vBool _, .vDict _ => .isFalse (fun h => nomatch h)
  | .vInt _, .vNull => .isFalse (fun h => nomatch h)
  | .vInt _, .vBool _ => .isFalse (fun h => nomatch h)
  | .vInt _, .vStr _ => .isFalse (fun h => nomatch h)
  | .vInt _, .vList _ => .isFalse (fun h => nomatch h)
  | .vInt _, .vDict _ => .isFalse (fun h => nomatch h)
  | .vStr _, .vNull => .isFalse (fun h => nomatch h)
  | .vStr _, .vBool _ => .isFalse (fun h => nomatch h)
  | .vStr _, .vInt _ => .isFalse (fun h => nomatch h)
  | .vStr _, .vList _ => .isFalse (fun h => nomatch h)
  | .vStr _, .vDict _ => .isFalse (fun h => nomatch h)
  | .vList _, .vNull => .isFalse (fun h => nomatch h)
  | .vList _, .vBool _ => .isFalse (fun h => nomatch h)
  | .vList _, .vInt _ => .isFalse (fun h => nomatch h)
  | .vList _, .vStr _ => .isFalse (fun h => nomatch h)
  | .vList _, .vDict _ => .isFalse (fun h => nomatch h)
  | .vDict _, .vNull => .isFalse (fun h => nomatch h)
  | .vDict _, .vBool _ => .isFalse (fun h => nomatch h)
  | .vDict _, .vInt _ => .isFalse (fun h => nomatch h)
  | .vDict _, .vStr _ => .isFalse (fun h => nomatch h)
  | .vDict _, .vList _ => .isFalse (fun h => nomatch h)

/-- Decidable equality for lists of values. -/
def Value.decEqList : (as bs : List Value) → Decidable (as = bs)
  | [], [] => .isTrue rfl
  | [], _ :: _ => .isFalse (fun h => nomatch h)
  | _ :: _, [] => .isFalse (fun h => nomatch h)
  | a :: as, b :: bs =>
    match Value.decEq a b with
    | .isFalse h1 => .isFalse (fun hh => h1 (by injection hh))
    | .isTrue h1 =>
      match Value.decEqList as bs with
      | .isTrue h2 => .isTrue (by rw [h1, h2])
      | .isFalse h2 => .isFalse (fun hh => h2 (by injection hh))

/-- Decidable equality for association lists of values. -/
def Value.decEqEntries : (as bs : List (String × Value)) → Decidable (as = bs)
  | [], [] => .isTrue rfl
  | [], _ :: _ => .isFalse (fun h => nomatch h)
  | _ :: _, [] => .isFalse (fun h => nomatch h)
  | (k1, v1) :: as, (k2, v2) :: bs =>
    if hk : k1 = k2 then
      match Value.decEq v1 v2 with
      | .isFalse h1 =>
        .isFalse (fun hh => by
          injection hh with hpair hrest
          exact h1 (congrArg Prod.snd hpair))
      | .isTrue h1 =>
        match Value.decEqEntries as bs with
        | .isTrue h2 => .isTrue (by rw [hk, h1, h2])
        | .isFalse h2 => .isFalse (fun hh => h2 (by injection hh))
    else
      .isFalse (fun hh => by
        injection hh with hpair hrest
        exact hk (congrArg Prod.fst hpair))

end

instance : DecidableEq Value := Value.decEq

/-- First-match lookup in an association list: Python `d[k]`/`d.get(k)` on a
dict embedded in insertion order (Python dicts have unique keys, so first
match is the only match). -/
def lookupKey {α : Type} : List (String × α) → String → Option α
  | [], _ => none
  | (k, v) :: rest, key => if k = key then some v else lookupKey rest key

/-- Python `attrs.get(key)`: the stored value, or `None` when the key is
absent (drift_engine.py lines 66-67, 79). -/
def getAttr (m : List (String × Value)) (key : String) : Value :=
  (lookupKey m key).getD Value.vNull

/-- Embeds `models.py` `ParsedResource`: standardized representation of an IaC
resource or an actual cloud resource. -/
structure ParsedResource where
  id : String
  type : String
  name : String
  provider_name : String
  module : Option String := none
  attributes : List (String × Value) := []
deriving DecidableEq

/-- Embeds `models.py` `DriftType`: the three drift categories. -/
inductive DriftType where
  | MISSING_IN_ACTUAL : DriftType
  | UNMANAGED_IN_ACTUAL : DriftType
  | MODIFIED : DriftType
deriving DecidableEq

/-- Embeds `models.py` `AttributeDrift`: one differing attribute.  A Python
`None` value (meaning "attribute absent on that side") is `Value.vNull`. -/
structure AttributeDrift where
  attribute_name : String
  iac_value : Value
  actual_value : Value
deriving DecidableEq

/-- Embeds `models.py` `DriftInfo`: one drift record. -/
structure DriftInfo where
  drift_type : DriftType
  resource_type : String
  resource_name : String
  resource_id : Option String := none
  iac_resource : Option ParsedResource := none
  actual_resource : Option ParsedResource := none
  attribute_drifts : List AttributeDrift := []
  message : Option String := none
deriving DecidableEq

/-- The ignore configuration: a map from resource type to the attribute names
to skip (drift_engine.py `ignored_attributes_config`). -/
abbrev IgnoreConfig := List (String × List String)

/-- Embeds drift_engine.py lines 9-29: `DEFAULT_IGNORED_ATTRIBUTES`, the
built-in read-only default ignore table. -/
def DEFAULT_IGNORED_ATTRIBUTES : IgnoreConfig :=
  [ ("aws_instance",
      [ "arn", "private_dns", "public_dns", "public_ip", "ipv6_addresses",
        "tags_all", "ebs_block_device", "root_block_device", "timeouts" ]),
    ("aws_s3_bucket",
      [ "arn", "bucket_domain_name", "bucket_regional_domain_name",
        "tags_all", "timeouts" ]) ]

/-- Embeds drift_engine.py lines 53-55:
`(ignored_attributes_config or DEFAULT_IGNORED_ATTRIBUTES).get(resource_type, [])`.
Python `or` falls back to the default table when the config argument is falsy,
i.e. when it is `None` **or an empty dict**. -/
def currentIgnoredAttributes (ignored_attributes_config : Option IgnoreConfig)
    (resource_type : String) : List String :=
  (lookupKey
    (match ignored_attributes_config with
     | some cfg => if cfg = [] then DEFAULT_IGNORED_ATTRIBUTES else cfg
     | none => DEFAULT_IGNORED_ATTRIBUTES)
    resource_type).getD []

/-- Embeds drift_engine.py lines 77-93, the per-tag loop: for each tag in the
IaC tags dict, compare it with `actual_value.get(tag_key)` and emit a
`tags.<key>` drift when they differ.  Tags present only on the actual side are
never visited. -/
def tagDrifts (iac_tags actual_tags : List (String × Value)) : List AttributeDrift :=
  iac_tags.filterMap (fun kv =>
    let tag_actual_val := getAttr actual_tags kv.1
    if tag_actual_val ≠ kv.2 then
      some { attribute_name := "tags." ++ kv.1, iac_value := kv.2,
             actual_value := tag_actual_val }
    else none)

/-- Embeds `key.startswith("_")` (drift_engine.py line 63): the key has a
first character and it is an underscore. -/
def startsWithUnderscore (key : String) : Bool :=
  match key.data with
  | [] => false
  | c :: _ => c = '_'

/-- Embeds drift_engine.py lines 95-105, the generic comparison branch:
emit one drift when the two values differ under Python `!=`. -/
def genericDrift (key : String) (iac_value actual_value : Value) : List AttributeDrift :=
  if iac_value ≠ actual_value then
    [{ attribute_name := key, iac_value := iac_value, actual_value := actual_value }]
  else []

/-- Embeds the body of the key loop of `compare_attributes`
(drift_engine.py lines 62-105): skip ignored keys and keys starting with
`_`; for the key `"tags"` with dicts on both sides run the per-tag loop
(after which the generic `elif` comparison is never evaluated, whether or not
any per-tag drift was found); otherwise run the generic comparison. -/
def compareKey (iac_attrs actual_attrs : List (String × Value))
    (current_ignored_attributes : List String) (key : String) : List AttributeDrift :=
  if key ∈ current_ignored_attributes ∨ startsWithUnderscore key then []
  else if key = "tags" then
    match getAttr iac_attrs key, getAttr actual_attrs key with
    | Value.vDict iac_tags, Value.vDict actual_tags => tagDrifts iac_tags actual_tags
    | iv, av => genericDrift key iv av
  else genericDrift key (getAttr iac_attrs key) (getAttr actual_attrs key)

/-- Embeds drift_engine.py lines 32-107, `compare_attributes`.  The Python
`all_keys = set(iac_attrs.keys()) | set(actual_attrs.keys())` iterates each
distinct key once in an unspecified order; it is modelled as the deduplicated
concatenation of the two key lists (spec §4.1 step 4 guarantees only an
arbitrary-but-deterministic order). -/
def compare_attributes (iac_attrs actual_attrs : List (String × Value))
    (resource_type : String)
    (ignored_attributes_config : Option IgnoreConfig := none) : List AttributeDrift :=
  let current_ignored_attributes :=
    currentIgnoredAttributes ignored_attributes_config resource_type
  let all_keys := (iac_attrs.map Prod.fst ++ actual_attrs.map Prod.fst).dedup
  all_keys.flatMap (compareKey iac_attrs actual_attrs current_ignored_attributes)

/-- Python dict assignment `d[k] = v`: replace the value in place when the key
exists, else append the new entry. -/
def dictInsert {α : Type} : List (String × α) → String → α → List (String × α)
  | [], k, v => [(k, v)]
  | (k', v') :: rest, k, v =>
    if k' = k then (k, v) :: rest else (k', v') :: dictInsert rest k v

/-- Embeds drift_engine.py lines 130-135: the id-keyed index
`{res.id: res for res in resources if res.id}`.  Records whose `id` is the
empty string (falsy in Python) are silently excluded; a later record with the
same id overwrites an earlier one. -/
def indexById (resources : List ParsedResource) : List (String × ParsedResource) :=
  resources.foldl (fun d res => if res.id ≠ "" then dictInsert d res.id res else d) []

/-- Message of drift_engine.py line 154 (type mismatch). -/
def typeMismatchMessage (iac_type actual_type res_id : String) : String :=
  "Type mismatch: IaC type '" ++ iac_type ++ "', Actual type '" ++ actual_type ++
    "' for ID '" ++ res_id ++ "'."

/-- Message of drift_engine.py line 175 (modified attributes). -/
def modifiedMessage (iac_type iac_name res_id : String) : String :=
  "Resource '" ++ iac_type ++ "." ++ iac_name ++ "' (ID: " ++ res_id ++
    ") has modified attributes."

/-- Message of drift_engine.py line 188 (missing in actual). -/
def missingMessage (iac_type iac_name res_id : String) : String :=
  "Resource '" ++ iac_type ++ "." ++ iac_name ++ "' (Expected ID: " ++ res_id ++
    ") defined in IaC is missing in actual state."

/-- Message of drift_engine.py line 208 (unmanaged in actual). -/
def unmanagedMessage (res_id actual_type actual_name : String) : String :=
  "Resource ID '" ++ res_id ++ "' (Type: " ++ actual_type ++ ", Name: " ++
    actual_name ++ ") found in actual state is not managed by (or tracked in) current IaC state."

/-- Embeds the body of the first loop of `compare_states`
(drift_engine.py lines 138-190): for one desired-index entry, emit the
MODIFIED record (type mismatch, or non-empty attribute drift list) or the
MISSING_IN_ACTUAL record. -/
def driftsForIacEntry (actual_by_id : List (String × ParsedResource))
    (ignored_attributes_config : Option IgnoreConfig)
    (iac_res_id : String) (iac_res : ParsedResource) : List DriftInfo :=
  match lookupKey actual_by_id iac_res_id with
  | some actual_res =>
    if iac_res.type ≠ actual_res.type then
      [{ drift_type := DriftType.MODIFIED,
         resource_type := iac_res.type,
         resource_name := iac_res.name,
         resource_id := some iac_res_id,
         iac_resource := some iac_res,
         actual_resource := some actual_res,
         attribute_drifts := [],
         message := some (typeMismatchMessage iac_res.type actual_res.type iac_res_id) }]
    else
      let attribute_drifts :=
        compare_attributes iac_res.attributes actual_res.attributes iac_res.type
          ignored_attributes_config
      if attribute_drifts ≠ [] then
        [{ drift_type := DriftType.MODIFIED,
           resource_type := iac_res.type,
           resource_name := iac_res.name,
           resource_id := some iac_res_id,
           iac_resource := some iac_res,
           actual_resource := some actual_res,
           attribute_drifts := attribute_drifts,
           message := some (modifiedMessage iac_res.type iac_res.name iac_res_id) }]
      else []
  | none =>
    [{ drift_type := DriftType.MISSING_IN_ACTUAL,
       resource_type := iac_res.type,
       resource_name := iac_res.name,
       resource_id := some iac_res_id,
       iac_resource := some iac_res,
       actual_resource := none,
       message := some (missingMessage iac_res.type iac_res.name iac_res_id) }]

/-- Embeds the body of the second loop of `compare_states`
(drift_engine.py lines 194-210): for one actual-index entry whose id is not a
key of the desired index, emit the UNMANAGED_IN_ACTUAL record. -/
def driftsForActualEntry (iac_by_id : List (String × ParsedResource))
    (actual_res_id : String) (actual_res : ParsedResource) : List DriftInfo :=
  match lookupKey iac_by_id actual_res_id with
  | some _ => []
  | none =>
    [{ drift_type := DriftType.UNMANAGED_IN_ACTUAL,
       resource_type := actual_res.type,
       resource_name := actual_res.name,
       resource_id := some actual_res_id,
       iac_resource := none,
       actual_resource := some actual_res,
       message := some (unmanagedMessage actual_res_id actual_res.type actual_res.name) }]

/-- Embeds drift_engine.py lines 110-212, `compare_states`: index both
collections by id, then run the desired-driven loop followed by the
actual-only loop. -/
def compare_states (iac_resources actual_resources : List ParsedResource)
    (ignored_attributes_config : Option IgnoreConfig := none) : List DriftInfo :=
  let iac_by_id := indexById iac_resources
  let actual_by_id := indexById actual_resources
  (iac_by_id.flatMap (fun p =>
    driftsForIacEntry actual_by_id ignored_attributes_config p.1 p.2)) ++
  (actual_by_id.flatMap (fun p => driftsForActualEntry iac_by_id p.1 p.2))

mutual

/-- Python `repr` of an attribute value, as used (via `str`) when values are
interpolated into f-strings in remediation.py.  String escaping inside nested
reprs is not modelled; no claim depends on the rendered text of containers. -/
def pyRepr : Value → String
  | Value.vNull => "None"
  | Value.vBool true => "True"
  | Value.vBool false => "False"
  | Value.vInt n => toString n
  | Value.vStr s => "'" ++ s ++ "'"
  | Value.vList xs => "[" ++ pyReprList xs ++ "]"
  | Value.vDict kvs => "\x7b" ++ pyReprEntries kvs ++ "\x7d"

/-- Comma-separated reprs of list elements. -/
def pyReprList : List Value → String
  | [] => ""
  | [v] => pyRepr v
  | v :: rest => pyRepr v ++ ", " ++ pyReprList rest

/-- Comma-separated reprs of dict entries. -/
def pyReprEntries : List (String × Value) → String
  | [] => ""
  | [(k, v)] => "'" ++ k ++ "': " ++ pyRepr v
  | (k, v) :: rest => "'" ++ k ++ "': " ++ pyRepr v ++ ", " ++ pyReprEntries rest

end

/-- Python `str` of an attribute value (f-string interpolation): bare text for
strings, `repr`-like rendering otherwise. -/
def pyStr : Value → String
  | Value.vStr s => s
  | v => pyRepr v

/-- Python f-string interpolation of an `Optional[str]`: `None` renders as
the text `None`. -/
def optionalStr : Option String → String
  | none => "None"
  | some s => s

/-- Embeds remediation.py lines 72-81: render one side of an attribute drift,
`'<value>'` when the value is not `None`, else the literal `not set (None)`. -/
def valueDisplay (v : Value) : String :=
  if v ≠ Value.vNull then "'" ++ pyStr v ++ "'" else "not set (None)"

/-- Embeds remediation.py lines 82-84: the three lines rendered per
`AttributeDrift` in the MODIFIED branch. -/
def attrDriftLines (attr_drift : AttributeDrift) : List String :=
  [ "  - Attribute '" ++ attr_drift.attribute_name ++ "':",
    "    - IaC expects: " ++ valueDisplay attr_drift.iac_value,
    "    - Actual is:   " ++ valueDisplay attr_drift.actual_value ]

/-- Embeds remediation.py lines 21-26: the resource identifier used in all
suggestion text.  Python truthiness: `if drift_info.resource_id:` is false for
`None` and for the empty string; the fallback requires `iac_resource` present
with a truthy id. -/
def resIdentifier (drift_info : DriftInfo) : String :=
  let base := drift_info.resource_type ++ "." ++ drift_info.resource_name
  match drift_info.resource_id with
  | some rid =>
    if rid ≠ "" then base ++ " (ID: " ++ rid ++ ")"
    else match drift_info.iac_resource with
      | some r => if r.id ≠ "" then base ++ " (Expected IaC ID: " ++ r.id ++ ")" else base
      | none => base
  | none =>
    match drift_info.iac_resource with
    | some r => if r.id ≠ "" then base ++ " (Expected IaC ID: " ++ r.id ++ ")" else base
    | none => base

/-- Embeds remediation.py lines 28-43, the MISSING_IN_ACTUAL branch.  The
module note is appended only when `iac_resource` is present with a truthy
(non-`None`, non-empty) `module`. -/
def missingSuggestions (drift_info : DriftInfo) (iac_tool : String)
    (res_identifier : String) : List String :=
  [ "Resource " ++ res_identifier ++ " is defined in IaC but MISSING in the actual state." ] ++
  (if iac_tool = "terraform" then
    [ "  - Suggestion: Run 'terraform apply' to create the resource." ] ++
    (match drift_info.iac_resource with
     | some r =>
       match r.module with
       | some m =>
         if m ≠ "" then [ "    (Resource is in module: " ++ m ++ ")" ] else []
       | none => []
     | none => [])
  else
    [ "  - Suggestion: Use your IaC tool to apply the configuration and create the resource." ])

/-- Embeds remediation.py lines 45-65, the UNMANAGED_IN_ACTUAL branch.  The
terraform sub-branch dereferences `drift_info.actual_resource.type` and
`.name` (line 54) without a guard: when `actual_resource` is `None` the Python
code raises `AttributeError`, embedded here as the result `none`. -/
def unmanagedSuggestions (drift_info : DriftInfo) (iac_tool : String)
    (res_identifier : String) : Option (List String) :=
  let intro :=
    [ "Resource " ++ res_identifier ++ " exists in the actual state but is UNMANAGED by IaC.",
      "  - This resource may have been created manually or outside of the current IaC configuration." ]
  if iac_tool = "terraform" then
    match drift_info.actual_resource with
    | none => none
    | some actual_res =>
      some (intro ++
        [ "  - Suggestion 1: Import the resource into Terraform state using 'terraform import " ++
            actual_res.type ++ "." ++ actual_res.name ++ " " ++
            optionalStr drift_info.resource_id ++
            "' (adjust logical name as needed) and then define it in your Terraform code.",
          "  - Suggestion 2: If the resource is not needed or should be managed by a different IaC setup, consider removing it manually from the cloud environment (with caution).",
          "  - Suggestion 3: If it should be ignored by this drift detection, update ignore configurations." ])
  else
    some (intro ++
      [ "  - Suggestion: Consider importing it into your IaC, defining it in code, or removing it manually if not needed." ])

/-- Embeds remediation.py lines 67-96, the MODIFIED branch: the header line,
three lines per attribute drift, then the tool-specific closing suggestion. -/
def modifiedSuggestions (drift_info : DriftInfo) (iac_tool : String)
    (res_identifier : String) : List String :=
  [ "Resource " ++ res_identifier ++ " is MODIFIED. Differences found between IaC and actual state:" ] ++
  drift_info.attribute_drifts.flatMap attrDriftLines ++
  (if iac_tool = "terraform" then
    [ "  - Suggestion: Review the differences. If IaC is the source of truth, run 'terraform apply' to align the actual state.",
      "    If changes in actual state are intentional and desired, update your Terraform code to match, then plan and apply." ]
  else
    [ "  - Suggestion: Review differences. Align actual state by applying IaC, or update IaC to match actual state if changes are desired." ])

/-- Embeds remediation.py lines 5-103, `suggest_remediation`.  The result is
`none` exactly when the Python function raises (the unguarded attribute access
in the UNMANAGED terraform sub-branch); the final Python `else` branch
("Unknown drift type") is unreachable for the three members of the `DriftType`
enum, so the match below is exhaustive. -/
def suggest_remediation (drift_info : DriftInfo)
    (iac_tool : String := "terraform") : Option (List String) :=
  let res_identifier := resIdentifier drift_info
  match drift_info.drift_type with
  | DriftType.MISSING_IN_ACTUAL =>
    some (missingSuggestions drift_info iac_tool res_identifier)
  | DriftType.UNMANAGED_IN_ACTUAL =>
    unmanagedSuggestions drift_info iac_tool res_identifier
  | DriftType.MODIFIED =>
    some (modifiedSuggestions drift_info iac_tool res_identifier)

/-- The contribution of the index entry for id `i` to a loop output: the loop
body applied to the entry when `i` is a key of the index, nothing otherwise. -/
def lookupOut {α β : Type} (d : List (String × α)) (i : String) (f : String → α → List β) :
    List β :=
  match lookupKey d i with
  | some v => f i v
  | none => []

/-- Well-formed drift record (spec section 3 and claim C9): the resource field
required by the record's variant is present. -/
def wellFormedDrift (drift : DriftInfo) : Prop :=
  match drift.drift_type with
  | DriftType.MISSING_IN_ACTUAL => drift.iac_resource.isSome
  | DriftType.UNMANAGED_IN_ACTUAL => drift.actual_resource.isSome
  | DriftType.MODIFIED => drift.iac_resource.isSome ∧ drift.actual_resource.isSome

/-! ## Association-list infrastructure lemmas -/

theorem lookupKey_dictInsert {α : Type} (d : List (String × α)) (k i : String) (v : α) :
    lookupKey (dictInsert d k v) i = if k = i then some v else lookupKey d i := by
  induction d with
  | nil => simp [dictInsert, lookupKey]
  | cons hd tl ih =>
    obtain ⟨k', v'⟩ := hd
    by_cases hk : k' = k
    · subst hk
      simp only [dictInsert, if_pos rfl, lookupKey]
      by_cases hi : k' = i
      · subst hi; simp [lookupKey]
      · simp [lookupKey, hi]
    · simp only [dictInsert, if_neg hk, lookupKey]
      by_cases hi : k' = i
      · subst hi
        have : ¬ (k = k') := fun h => hk h.symm
        simp [this]
      · simp [hi, ih]

theorem dictInsert_cons_eq {α : Type} (k' : String) (v' : α) (tl : List (String × α))
    (k : String) (v : α) (h : k' = k) :
    dictInsert ((k', v') :: tl) k v = (k, v) :: tl := by
  simp [dictInsert, h]

theorem dictInsert_cons_ne {α : Type} (k' : String) (v' : α) (tl : List (String × α))
    (k : String) (v : α) (h : ¬ k' = k) :
    dictInsert ((k', v') :: tl) k v = (k', v') :: dictInsert tl k v := by
  simp [dictInsert, h]

theorem mem_keys_dictInsert {α : Type} (d : List (String × α)) (k i : String) (v : α) :
    i ∈ (dictInsert d k v).map Prod.fst ↔ i = k ∨ i ∈ d.map Prod.fst := by
  induction d with
  | nil => simp [dictInsert]
  | cons hd tl ih =>
    obtain ⟨k', v'⟩ := hd
    by_cases hk : k' = k
    · rw [dictInsert_cons_eq k' v' tl k v hk]
      subst hk
      simp only [List.map_cons, List.mem_cons]
      tauto
    · rw [dictInsert_cons_ne k' v' tl k v hk]
      simp only [List.map_cons, List.mem_cons, ih]
      tauto

theorem nodup_keys_dictInsert {α : Type} (d : List (String × α)) (k : String) (v : α)
    (h : (d.map Prod.fst).Nodup) : ((dictInsert d k v).map Prod.fst).Nodup := by
  induction d with
  | nil => simp [dictInsert]
  | cons hd tl ih =>
    obtain ⟨k', v'⟩ := hd
    simp only [List.map_cons, List.nodup_cons] at h
    by_cases hk : k' = k
    · rw [dictInsert_cons_eq k' v' tl k v hk]
      subst hk
      simpa [List.nodup_cons] using h
    · rw [dictInsert_cons_ne k' v' tl k v hk]
      simp only [List.map_cons, List.nodup_cons]
      refine ⟨?_, ih h.2⟩
      rw [mem_keys_dictInsert]
      rintro (h1 | h1)
      · exact hk h1
      · exact h.1 h1

theorem nodup_keys_indexById (resources : List ParsedResource) :
    ((indexById resources).map Prod.fst).Nodup := by
  have main : ∀ (rs : List ParsedResource) (acc : List (String × ParsedResource)),
      (acc.map Prod.fst).Nodup →
      ((rs.foldl (fun d res => if res.id ≠ "" then dictInsert d res.id res else d) acc).map
        Prod.fst).Nodup := by
    intro rs
    induction rs with
    | nil => intro acc h; simpa using h
    | cons r tl ih =>
      intro acc h
      simp only [List.foldl_cons]
      by_cases hr : r.id ≠ ""
      · simp only [if_pos hr]
        exact ih _ (nodup_keys_dictInsert _ _ _ h)
      · simp only [if_neg hr]
        exact ih _ h
  exact main resources [] (by simp)

theorem getLast?_cons_or {α : Type} (a : α) (l : List α) :
    (a :: l).getLast? = l.getLast?.or (some a) := by
  induction l generalizing a with
  | nil => simp
  | cons b tl ih =>
    rw [List.getLast?_cons_cons, ih b]
    cases h : tl.getLast? with
    | none =>
      have : tl = [] := by
        cases tl with
        | nil => rfl
        | cons x xs => simp [List.getLast?_eq_getLast] at h
      subst this
      simp [Option.or]
    | some x => simp [Option.or]

theorem lookupKey_indexById (resources : List ParsedResource) (i : String) (hi : i ≠ "") :
    lookupKey (indexById resources) i = (resources.filter (fun r => r.id == i)).getLast? := by
  have main : ∀ (rs : List ParsedResource) (acc : List (String × ParsedResource)),
      lookupKey (rs.foldl (fun d res => if res.id ≠ "" then dictInsert d res.id res else d) acc) i
        = ((rs.filter (fun r => r.id == i)).getLast?).or (lookupKey acc i) := by
    intro rs
    induction rs with
    | nil => intro acc; simp
    | cons r tl ih =>
      intro acc
      rw [List.foldl_cons, ih]
      by_cases hri : r.id = i
      · have hrne : r.id ≠ "" := by rw [hri]; exact hi
        have hstep : (if r.id ≠ "" then dictInsert acc r.id r else acc)
            = dictInsert acc r.id r := if_pos hrne
        rw [hstep, lookupKey_dictInsert, if_pos hri]
        have hfil : List.filter (fun r => r.id == i) (r :: tl)
            = r :: List.filter (fun r => r.id == i) tl := by
          rw [List.filter_cons]
          simp [hri]
        rw [hfil, getLast?_cons_or, Option.or_assoc]
        have hcollapse : (some r).or (lookupKey acc i) = some r := rfl
        rw [hcollapse]
      · have hfil : List.filter (fun r => r.id == i) (r :: tl)
            = List.filter (fun r => r.id == i) tl := by
          rw [List.filter_cons]
          simp [hri]
        rw [hfil]
        by_cases hrne : r.id ≠ ""
        · have hstep : (if r.id ≠ "" then dictInsert acc r.id r else acc)
              = dictInsert acc r.id r := if_pos hrne
          rw [hstep, lookupKey_dictInsert, if_neg hri]
        · have hstep : (if r.id ≠ "" then dictInsert acc r.id r else acc) = acc :=
            if_neg hrne
          rw [hstep]
  have h0 := main resources []
  rw [show lookupKey ([] : List (String × ParsedResource)) i = none from rfl,
    Option.or_none] at h0
  exact h0

theorem mem_keys_iff_lookupKey {α : Type} (d : List (String × α)) (i : String) :
    i ∈ d.map Prod.fst ↔ (lookupKey d i).isSome := by
  induction d with
  | nil => simp [lookupKey]
  | cons hd tl ih =>
    obtain ⟨k, v⟩ := hd
    by_cases hk : k = i
    · subst hk; simp [lookupKey]
    · simp only [List.map_cons, List.mem_cons, lookupKey, if_neg hk, ih]
      constructor
      · rintro (h | h)
        · exact absurd h.symm hk
        · exact h
      · intro h; exact Or.inr h

theorem lookupKey_eq_of_nodup {α : Type} (d : List (String × α)) (k : String) (v : α)
    (hnd : (d.map Prod.fst).Nodup) (hmem : (k, v) ∈ d) : lookupKey d k = some v := by
  induction d with
  | nil => simp at hmem
  | cons hd tl ih =>
    obtain ⟨k', v'⟩ := hd
    simp only [List.map_cons, List.nodup_cons] at hnd
    rcases List.mem_cons.mp hmem with h | h
    · rw [Prod.mk.injEq] at h
      obtain ⟨h1, h2⟩ := h
      simp [lookupKey, h1, h2]
    · have hk : k' ≠ k := by
        intro hkk
        subst hkk
        exact hnd.1 (List.mem_map.mpr ⟨(k', v), h, rfl⟩)
      simp only [lookupKey, if_neg hk]
      exact ih hnd.2 h

theorem getLast?_eq_of_all_eq {α : Type} (l : List α) (r : α) (hne : l ≠ [])
    (hall : ∀ x ∈ l, x = r) : l.getLast? = some r := by
  induction l with
  | nil => exact absurd rfl hne
  | cons a tl ih =>
    cases tl with
    | nil => simp [hall a (by simp)]
    | cons b tl2 =>
      rw [List.getLast?_cons_cons]
      exact ih (by simp) (fun x hx => hall x (List.mem_cons.mpr (Or.inr hx)))

/-! ## Output-tagging lemmas: every record a loop body emits carries the id
of the index entry that produced it, and ids index the output uniquely. -/

theorem filter_flatMap_eq_nil {α β : Type} (d : List (String × α)) (f : String → α → List β)
    (tag : β → Option String) (i : String)
    (hnotin : i ∉ d.map Prod.fst)
    (htag : ∀ k v, (k, v) ∈ d → ∀ b ∈ f k v, tag b = some k) :
    (d.flatMap (fun p => f p.1 p.2)).filter (fun b => tag b == some i) = [] := by
  rw [List.filter_eq_nil_iff]
  intro b hb
  rw [List.mem_flatMap] at hb
  obtain ⟨p, hp, hbp⟩ := hb
  have htg := htag p.1 p.2 (by simpa using hp) b hbp
  rw [htg]
  simp only [beq_iff_eq, Option.some.injEq]
  intro h
  exact hnotin (List.mem_map.mpr ⟨p, hp, h⟩)

theorem lookupOut_some {α β : Type} (d : List (String × α)) (i : String)
    (f : String → α → List β) (v : α) (h : lookupKey d i = some v) :
    lookupOut d i f = f i v := by
  unfold lookupOut
  rw [h]

theorem lookupOut_none {α β : Type} (d : List (String × α)) (i : String)
    (f : String → α → List β) (h : lookupKey d i = none) :
    lookupOut d i f = [] := by
  unfold lookupOut
  rw [h]

theorem filter_flatMap_lookup {α β : Type} (d : List (String × α)) (f : String → α → List β)
    (tag : β → Option String) (i : String)
    (hnd : (d.map Prod.fst).Nodup)
    (htag : ∀ k v, (k, v) ∈ d → ∀ b ∈ f k v, tag b = some k) :
    (d.flatMap (fun p => f p.1 p.2)).filter (fun b => tag b == some i) =
      lookupOut d i f := by
  unfold lookupOut
  induction d with
  | nil => simp [lookupKey]
  | cons hd tl ih =>
    obtain ⟨k, v⟩ := hd
    rw [List.flatMap_cons, List.filter_append]
    simp only [List.map_cons, List.nodup_cons] at hnd
    by_cases hk : k = i
    · subst hk
      have h1 : (f k v).filter (fun b => tag b == some k) = f k v := by
        rw [List.filter_eq_self]
        intro b hb
        rw [htag k v (List.mem_cons_self _ _) b hb]
        simp
      have h2 : (tl.flatMap (fun p => f p.1 p.2)).filter (fun b => tag b == some k) = [] :=
        filter_flatMap_eq_nil tl f tag k hnd.1
          (fun k' v' h => htag k' v' (List.mem_cons.mpr (Or.inr h)))
      rw [h1, h2, List.append_nil]
      simp [lookupKey]
    · have h1 : (f k v).filter (fun b => tag b == some i) = [] := by
        rw [List.filter_eq_nil_iff]
        intro b hb
        rw [htag k v (List.mem_cons_self _ _) b hb]
        simp [hk]
      rw [h1, List.nil_append,
        ih hnd.2 (fun k' v' h => htag k' v' (List.mem_cons.mpr (Or.inr h)))]
      simp [lookupKey, hk]

theorem driftsForIacEntry_resource_id (A : List (String × ParsedResource))
    (cfg : Option IgnoreConfig) (k : String) (r : ParsedResource) :
    ∀ rec ∈ driftsForIacEntry A cfg k r, rec.resource_id = some k := by
  intro rec hrec
  simp only [driftsForIacEntry] at hrec
  split at hrec
  · split at hrec
    · simp only [List.mem_singleton] at hrec
      subst hrec; rfl
    · split at hrec
      · simp only [List.mem_singleton] at hrec
        subst hrec; rfl
      · simp at hrec
  · simp only [List.mem_singleton] at hrec
    subst hrec; rfl

theorem driftsForActualEntry_resource_id (D : List (String × ParsedResource))
    (k : String) (s : ParsedResource) :
    ∀ rec ∈ driftsForActualEntry D k s, rec.resource_id = some k := by
  intro rec hrec
  simp only [driftsForActualEntry] at hrec
  split at hrec
  · simp at hrec
  · simp only [List.mem_singleton] at hrec
    subst hrec; rfl

theorem compare_states_filter_eq (iac_resources actual_resources : List ParsedResource)
    (cfg : Option IgnoreConfig) (i : String) :
    (compare_states iac_resources actual_resources cfg).filter
        (fun rec => rec.resource_id == some i) =
      lookupOut (indexById iac_resources) i
        (fun k r => driftsForIacEntry (indexById actual_resources) cfg k r) ++
      lookupOut (indexById actual_resources) i
        (fun k s => driftsForActualEntry (indexById iac_resources) k s) := by
  simp only [compare_states]
  rw [List.filter_append]
  congr 1
  · exact filter_flatMap_lookup (indexById iac_resources)
      (fun k r => driftsForIacEntry (indexById actual_resources) cfg k r)
      (fun rec => rec.resource_id) i (nodup_keys_indexById _)
      (fun k v _ => driftsForIacEntry_resource_id _ cfg k v)
  · exact filter_flatMap_lookup (indexById actual_resources)
      (fun k s => driftsForActualEntry (indexById iac_resources) k s)
      (fun rec => rec.resource_id) i (nodup_keys_indexById _)
      (fun k v _ => driftsForActualEntry_resource_id _ k v)

/-! ## Shape analysis of `compare_attributes` output -/

theorem mem_genericDrift (key : String) (iv av : Value) (drift : AttributeDrift) :
    drift ∈ genericDrift key iv av ↔
      iv ≠ av ∧ drift = { attribute_name := key, iac_value := iv, actual_value := av } := by
  unfold genericDrift
  by_cases hne : iv ≠ av
  · rw [if_pos hne]
    simp [hne, eq_comm]
  · rw [if_neg hne]
    simp [hne]

theorem mem_tagDrifts (dt at2 : List (String × Value)) (drift : AttributeDrift) :
    drift ∈ tagDrifts dt at2 ↔
      ∃ tk tv, (tk, tv) ∈ dt ∧ getAttr at2 tk ≠ tv ∧
        drift = { attribute_name := "tags." ++ tk, iac_value := tv,
                  actual_value := getAttr at2 tk } := by
  unfold tagDrifts
  rw [List.mem_filterMap]
  constructor
  · rintro ⟨⟨tk, tv⟩, hmem, hf⟩
    dsimp at hf
    by_cases hne : getAttr at2 tk ≠ tv
    · rw [if_pos hne] at hf
      exact ⟨tk, tv, hmem, hne, (Option.some.inj hf).symm⟩
    · rw [if_neg hne] at hf
      exact absurd hf (by simp)
  · rintro ⟨tk, tv, hmem, hne, hd⟩
    refine ⟨(tk, tv), hmem, ?_⟩
    dsimp
    rw [if_pos hne, hd]

theorem compareKey_not_ignored (iac act : List (String × Value)) (ign : List String)
    (key : String) (drift : AttributeDrift) (h : drift ∈ compareKey iac act ign key) :
    ¬ (key ∈ ign ∨ startsWithUnderscore key = true) := by
  intro hig
  unfold compareKey at h
  rw [if_pos hig] at h
  simp at h

theorem compareKey_cases (iac act : List (String × Value)) (ign : List String) (key : String)
    (drift : AttributeDrift) (h : drift ∈ compareKey iac act ign key) :
    (drift.attribute_name = key ∧
      (key = "tags" →
        ∀ dt at2, ¬(getAttr iac "tags" = Value.vDict dt ∧ getAttr act "tags" = Value.vDict at2))) ∨
    (key = "tags" ∧ ∃ dt at2 tk tv,
      getAttr iac "tags" = Value.vDict dt ∧ getAttr act "tags" = Value.vDict at2 ∧
      (tk, tv) ∈ dt ∧ getAttr at2 tk ≠ tv ∧
      drift = { attribute_name := "tags." ++ tk, iac_value := tv,
                actual_value := getAttr at2 tk }) := by
  unfold compareKey at h
  by_cases hig : key ∈ ign ∨ startsWithUnderscore key
  · rw [if_pos hig] at h
    simp at h
  · rw [if_neg hig] at h
    by_cases hkey : key = "tags"
    · subst hkey
      rw [if_pos rfl] at h
      split at h
      · next iac_tags actual_tags hiv hav =>
        right
        rw [mem_tagDrifts] at h
        obtain ⟨tk, tv, hmem, hne, hd⟩ := h
        exact ⟨rfl, iac_tags, actual_tags, tk, tv, hiv, hav, hmem, hne, hd⟩
      · next iv av hnotdict =>
        left
        rw [mem_genericDrift] at h
        refine ⟨by rw [h.2], ?_⟩
        intro _ dt at2 ⟨h1, h2⟩
        exact hnotdict dt at2 (h1 ▸ rfl) (h2 ▸ rfl)
    · rw [if_neg hkey] at h
      rw [mem_genericDrift] at h
      exact Or.inl ⟨by rw [h.2], fun hk => absurd hk hkey⟩

theorem mem_compare_attributes (iac act : List (String × Value)) (resource_type : String)
    (cfg : Option IgnoreConfig) (drift : AttributeDrift) :
    drift ∈ compare_attributes iac act resource_type cfg ↔
      ∃ key, (key ∈ iac.map Prod.fst ∨ key ∈ act.map Prod.fst) ∧
        drift ∈ compareKey iac act (currentIgnoredAttributes cfg resource_type) key := by
  unfold compare_attributes
  rw [List.mem_flatMap]
  constructor
  · rintro ⟨key, hkey, hd⟩
    rw [List.mem_dedup, List.mem_append] at hkey
    exact ⟨key, hkey, hd⟩
  · rintro ⟨key, hkey, hd⟩
    refine ⟨key, ?_, hd⟩
    rw [List.mem_dedup, List.mem_append]
    exact hkey

/-! ## No-drift lemmas for identical inputs -/

theorem genericDrift_self (key : String) (v : Value) : genericDrift key v v = [] := by
  simp [genericDrift]

theorem tagDrifts_self (d : List (String × Value)) (hnd : (d.map Prod.fst).Nodup) :
    tagDrifts d d = [] := by
  unfold tagDrifts
  rw [List.filterMap_eq_nil_iff]
  rintro ⟨tk, tv⟩ hmem
  dsimp
  rw [if_neg]
  intro hne
  rw [getAttr, lookupKey_eq_of_nodup d tk tv hnd hmem] at hne
  exact hne rfl

theorem compareKey_self (a : List (String × Value)) (ign : List String) (key : String)
    (htags : ∀ d, getAttr a "tags" = Value.vDict d → (d.map Prod.fst).Nodup) :
    compareKey a a ign key = [] := by
  unfold compareKey
  by_cases hig : key ∈ ign ∨ startsWithUnderscore key
  · rw [if_pos hig]
  · rw [if_neg hig]
    by_cases hkey : key = "tags"
    · subst hkey
      rw [if_pos rfl]
      split
      · next iac_tags actual_tags hiv hav =>
        have : iac_tags = actual_tags := by
          rw [hiv] at hav
          exact (Value.vDict.injEq .. ▸ hav)
        subst this
        exact tagDrifts_self iac_tags (htags iac_tags hiv)
      · next iv av hnotdict =>
        exact genericDrift_self _ _
    · rw [if_neg hkey]
      exact genericDrift_self _ _

theorem compare_attributes_self (a : List (String × Value)) (resource_type : String)
    (cfg : Option IgnoreConfig)
    (htags : ∀ d, getAttr a "tags" = Value.vDict d → (d.map Prod.fst).Nodup) :
    compare_attributes a a resource_type cfg = [] := by
  unfold compare_attributes
  rw [List.flatMap_eq_nil_iff]
  intro key _
  exact compareKey_self a _ key htags

/-! ## Shape lemmas for the per-entry loop bodies and string facts -/

theorem string_append_left_cancel {s t u : String} (h : s ++ t = s ++ u) : t = u := by
  have hd : (s ++ t).data = (s ++ u).data := congrArg String.data h
  rw [String.data_append, String.data_append] at hd
  exact String.ext (List.append_cancel_left hd)

theorem tags_prefix_ne_tags (tk : String) : "tags." ++ tk ≠ "tags" := by
  intro h
  have hlen := congrArg String.length h
  rw [String.length_append] at hlen
  have h5 : ("tags." : String).length = 5 := rfl
  have h4 : ("tags" : String).length = 4 := rfl
  omega

theorem driftsForIacEntry_matched (A : List (String × ParsedResource))
    (cfg : Option IgnoreConfig) (k : String) (r s : ParsedResource)
    (hA : lookupKey A k = some s) :
    driftsForIacEntry A cfg k r =
      if r.type ≠ s.type then
        [{ drift_type := DriftType.MODIFIED,
           resource_type := r.type,
           resource_name := r.name,
           resource_id := some k,
           iac_resource := some r,
           actual_resource := some s,
           attribute_drifts := [],
           message := some (typeMismatchMessage r.type s.type k) }]
      else if compare_attributes r.attributes s.attributes r.type cfg ≠ [] then
        [{ drift_type := DriftType.MODIFIED,
           resource_type := r.type,
           resource_name := r.name,
           resource_id := some k,
           iac_resource := some r,
           actual_resource := some s,
           attribute_drifts := compare_attributes r.attributes s.attributes r.type cfg,
           message := some (modifiedMessage r.type r.name k) }]
      else [] := by
  unfold driftsForIacEntry
  rw [hA]

theorem driftsForIacEntry_unmatched (A : List (String × ParsedResource))
    (cfg : Option IgnoreConfig) (k : String) (r : ParsedResource)
    (hA : lookupKey A k = none) :
    driftsForIacEntry A cfg k r =
      [{ drift_type := DriftType.MISSING_IN_ACTUAL,
         resource_type := r.type,
         resource_name := r.name,
         resource_id := some k,
         iac_resource := some r,
         actual_resource := none,
         message := some (missingMessage r.type r.name k) }] := by
  unfold driftsForIacEntry
  rw [hA]

theorem driftsForActualEntry_matched (D : List (String × ParsedResource))
    (k : String) (s r : ParsedResource) (hD : lookupKey D k = some r) :
    driftsForActualEntry D k s = [] := by
  unfold driftsForActualEntry
  rw [hD]

theorem driftsForActualEntry_unmatched (D : List (String × ParsedResource))
    (k : String) (s : ParsedResource) (hD : lookupKey D k = none) :
    driftsForActualEntry D k s =
      [{ drift_type := DriftType.UNMANAGED_IN_ACTUAL,
         resource_type := s.type,
         resource_name := s.name,
         resource_id := some k,
         iac_resource := none,
         actual_resource := some s,
         message := some (unmanagedMessage k s.type s.name) }] := by
  unfold driftsForActualEntry
  rw [hD]

theorem driftsForIacEntry_length_le (A : List (String × ParsedResource))
    (cfg : Option IgnoreConfig) (k : String) (r : ParsedResource) :
    (driftsForIacEntry A cfg k r).length ≤ 1 := by
  cases hA : lookupKey A k with
  | none => rw [driftsForIacEntry_unmatched A cfg k r hA]; simp
  | some s =>
    rw [driftsForIacEntry_matched A cfg k r s hA]
    split
    · simp
    · split <;> simp

theorem driftsForIacEntry_drift_type_matched (A : List (String × ParsedResource))
    (cfg : Option IgnoreConfig) (k : String) (r s : ParsedResource)
    (hA : lookupKey A k = some s) :
    ∀ rec ∈ driftsForIacEntry A cfg k r, rec.drift_type = DriftType.MODIFIED := by
  intro rec hrec
  rw [driftsForIacEntry_matched A cfg k r s hA] at hrec
  split at hrec
  · simp only [List.mem_singleton] at hrec
    subst hrec; rfl
  · split at hrec
    · simp only [List.mem_singleton] at hrec
      subst hrec; rfl
    · simp at hrec

theorem mem_compare_states_unmanaged_actual (iac_resources actual_resources : List ParsedResource)
    (cfg : Option IgnoreConfig) (rec : DriftInfo)
    (h : rec ∈ compare_states iac_resources actual_resources cfg) :
    rec.drift_type = DriftType.UNMANAGED_IN_ACTUAL → rec.actual_resource.isSome := by
  simp only [compare_states, List.mem_append, List.mem_flatMap] at h
  rcases h with ⟨p, _, hmem⟩ | ⟨p, _, hmem⟩
  · simp only [driftsForIacEntry] at hmem
    split at hmem
    · split at hmem
      · simp only [List.mem_singleton] at hmem
        subst hmem
        intro _; rfl
      · split at hmem
        · simp only [List.mem_singleton] at hmem
          subst hmem
          intro _; rfl
        · simp at hmem
    · simp only [List.mem_singleton] at hmem
      subst hmem
      intro hdt
      exact absurd hdt (by simp)
  · simp only [driftsForActualEntry] at hmem
    split at hmem
    · simp at hmem
    · simp only [List.mem_singleton] at hmem
      subst hmem
      intro _; rfl

/-! ## Claim theorems -/

/-- C7: in `compare_attributes` the ignore-list for `resource_type` is
resolved from the caller-supplied config whenever a non-empty one is provided
(yielding `[]` when the config does not mention the type, since
`lookupKey c resource_type = none` makes the `getD` default apply), and the
built-in `DEFAULT_IGNORED_ATTRIBUTES` table is consulted exactly when no
config is provided — including when the provided config is an empty map,
which Python's `or` treats as falsy. -/
theorem C7_ignore_config_resolution (cfg : Option IgnoreConfig) (resource_type : String) :
    (∀ c, cfg = some c → c ≠ [] →
      currentIgnoredAttributes cfg resource_type = (lookupKey c resource_type).getD []) ∧
    (cfg = none ∨ cfg = some [] →
      currentIgnoredAttributes cfg resource_type =
        (lookupKey DEFAULT_IGNORED_ATTRIBUTES resource_type).getD []) := by
  constructor
  · rintro c rfl hne
    simp only [currentIgnoredAttributes]
    rw [if_neg hne]
  · rintro (rfl | rfl)
    · rfl
    · simp [currentIgnoredAttributes]

/-- Witness for C7 at concrete inputs: a provided non-empty config is used
as-is, and an empty provided config falls back to the default table. -/
theorem C7_ignore_config_resolution_witness :
    (currentIgnoredAttributes (some [("aws_instance", ["uptime"])]) "aws_instance"
      = (lookupKey [("aws_instance", ["uptime"])] "aws_instance").getD []) ∧
    (currentIgnoredAttributes (some []) "aws_instance"
      = (lookupKey DEFAULT_IGNORED_ATTRIBUTES "aws_instance").getD []) :=
  ⟨(C7_ignore_config_resolution (some [("aws_instance", ["uptime"])]) "aws_instance").1
      [("aws_instance", ["uptime"])] rfl (by decide),
   (C7_ignore_config_resolution (some []) "aws_instance").2 (Or.inr rfl)⟩

/-- C8 counterexample: when the tags container types differ (desired side a
dict, actual side `None`), `compare_attributes` DOES flag a drift for the
`tags` key: the tags special case requires dicts on both sides, so the
generic `elif iac_value != actual_value` branch runs and reports `tags`.
This refutes the claim that no drift is flagged for the `tags` key in that
situation. -/
theorem C8_container_mismatch_counterexample :
    compare_attributes [("tags", Value.vDict [("a", Value.vStr "x")])]
      [("tags", Value.vNull)] "vm" none =
      [{ attribute_name := "tags", iac_value := Value.vDict [("a", Value.vStr "x")],
         actual_value := Value.vNull }] := by decide

/-- C8 (amended): when the `tags` attribute is a dict on BOTH sides, the
tag-diff logic reports one drift per differing desired tag key and the generic
`tags` comparison is always skipped, so no drift named `tags` is ever emitted;
but when the container type itself differs (e.g. desired has a dict, actual
has null), the generic comparison applies and a drift for the `tags` key IS
flagged (provided `tags` is not in the resolved ignore-list). -/
theorem C8_container_mismatch_amended (iac act : List (String × Value))
    (resource_type : String) (cfg : Option IgnoreConfig) :
    (∀ dt at2, getAttr iac "tags" = Value.vDict dt → getAttr act "tags" = Value.vDict at2 →
      ∀ drift ∈ compare_attributes iac act resource_type cfg,
        drift.attribute_name ≠ "tags") ∧
    (∀ iv av, getAttr iac "tags" = iv → getAttr act "tags" = av →
      (∀ dt at2, ¬(iv = Value.vDict dt ∧ av = Value.vDict at2)) →
      iv ≠ av →
      ("tags" ∈ iac.map Prod.fst ∨ "tags" ∈ act.map Prod.fst) →
      "tags" ∉ currentIgnoredAttributes cfg resource_type →
      { attribute_name := "tags", iac_value := iv, actual_value := av } ∈
        compare_attributes iac act resource_type cfg) := by
  constructor
  · intro dt at2 hiv hav drift hd
    rcases compareKey_cases iac act _ _ drift
        ((mem_compare_attributes iac act resource_type cfg drift).mp hd).choose_spec.2 with
      ⟨hname, hcond⟩ | ⟨_, dt2, at3, tk, tv, _, _, _, _, hdrift⟩
    · rw [hname]
      intro hkey
      exact hcond hkey dt at2 ⟨hiv, hav⟩
    · rw [hdrift]
      exact tags_prefix_ne_tags tk
  · intro iv av hiv hav hnotdict hne hmem hnotign
    rw [mem_compare_attributes]
    refine ⟨"tags", hmem, ?_⟩
    unfold compareKey
    rw [if_neg, if_pos rfl]
    · split
      · next iac_tags actual_tags hiv2 hav2 =>
        exact absurd ⟨by rw [← hiv, hiv2], by rw [← hav, hav2]⟩ (hnotdict iac_tags actual_tags)
      · next iv2 av2 =>
        rw [mem_genericDrift]
        rw [hiv, hav]
        exact ⟨hne, rfl⟩
    · rintro (h | h)
      · exact hnotign h
      · exact absurd h (by decide)

/-- Witness for C8's amended theorem at concrete inputs: with dicts on both
sides no `tags`-named drift appears, and with a dict against null the
`tags`-named drift is a member of the output. -/
theorem C8_container_mismatch_amended_witness :
    (∀ drift ∈ compare_attributes [("tags", Value.vDict [("a", Value.vStr "x")])]
        [("tags", Value.vDict [("a", Value.vStr "y")])] "vm" none,
      drift.attribute_name ≠ "tags") ∧
    { attribute_name := "tags", iac_value := Value.vDict [("a", Value.vStr "x")],
      actual_value := Value.vNull } ∈
      compare_attributes [("tags", Value.vDict [("a", Value.vStr "x")])]
        [("tags", Value.vNull)] "vm" none :=
  ⟨(C8_container_mismatch_amended [("tags", Value.vDict [("a", Value.vStr "x")])]
      [("tags", Value.vDict [("a", Value.vStr "y")])] "vm" none).1
      [("a", Value.vStr "x")] [("a", Value.vStr "y")] (by decide) (by decide),
   (C8_container_mismatch_amended [("tags", Value.vDict [("a", Value.vStr "x")])]
      [("tags", Value.vNull)] "vm" none).2
      (Value.vDict [("a", Value.vStr "x")]) Value.vNull (by decide) (by decide)
      (by rintro dt at2 ⟨h1, h2⟩; simp at h2) (by decide)
      (Or.inl (by decide)) (by decide)⟩

/-- C5: when the desired and actual indices hold records with the same id but
different `type` values, the output contains exactly one record for that id:
a MODIFIED record whose message is the descriptive type-mismatch text and
whose attribute drift list is empty (attribute comparison skipped); and the
totality of the embedding reflects that no exception is raised. -/
theorem C5_type_mismatch (iac_resources actual_resources : List ParsedResource)
    (cfg : Option IgnoreConfig) (i : String) (r s : ParsedResource)
    (hr : lookupKey (indexById iac_resources) i = some r)
    (hs : lookupKey (indexById actual_resources) i = some s)
    (hne : r.type ≠ s.type) :
    (compare_states iac_resources actual_resources cfg).filter
        (fun rec => rec.resource_id == some i) =
      [{ drift_type := DriftType.MODIFIED,
         resource_type := r.type,
         resource_name := r.name,
         resource_id := some i,
         iac_resource := some r,
         actual_resource := some s,
         attribute_drifts := [],
         message := some (typeMismatchMessage r.type s.type i) }] := by
  rw [compare_states_filter_eq, lookupOut_some _ _ _ r hr, lookupOut_some _ _ _ s hs,
    driftsForActualEntry_matched _ _ _ r hr, List.append_nil,
    driftsForIacEntry_matched _ cfg i r s hs, if_pos hne]

/-- Witness for C5 at a concrete input: same id `x`, types `vm` vs `disk`. -/
theorem C5_type_mismatch_witness :
    (compare_states
        [{ id := "x", type := "vm", name := "a", provider_name := "mock" }]
        [{ id := "x", type := "disk", name := "b", provider_name := "mock" }] none).filter
        (fun rec => rec.resource_id == some "x") =
      [{ drift_type := DriftType.MODIFIED,
         resource_type := "vm",
         resource_name := "a",
         resource_id := some "x",
         iac_resource := some { id := "x", type := "vm", name := "a", provider_name := "mock" },
         actual_resource := some { id := "x", type := "disk", name := "b", provider_name := "mock" },
         attribute_drifts := [],
         message := some (typeMismatchMessage "vm" "disk" "x") }] :=
  C5_type_mismatch
    [{ id := "x", type := "vm", name := "a", provider_name := "mock" }]
    [{ id := "x", type := "disk", name := "b", provider_name := "mock" }] none "x"
    { id := "x", type := "vm", name := "a", provider_name := "mock" }
    { id := "x", type := "disk", name := "b", provider_name := "mock" }
    (by decide) (by decide) (by decide)

/-- C9: on every well-formed drift record (the resource field required by its
variant is present), `suggest_remediation` returns (does not raise) and the
returned list of suggestion lines is non-empty, for every value of
`iac_tool`. -/
theorem C9_remediation_nonempty (drift : DriftInfo) (iac_tool : String)
    (hwf : wellFormedDrift drift) :
    ∃ l, suggest_remediation drift iac_tool = some l ∧ l ≠ [] := by
  obtain ⟨dt, rt, rn, rid, iacr, actr, ad, msg⟩ := drift
  cases dt
  case MISSING_IN_ACTUAL =>
    exact ⟨_, rfl, by simp [missingSuggestions]⟩
  case MODIFIED =>
    exact ⟨_, rfl, by simp [modifiedSuggestions]⟩
  case UNMANAGED_IN_ACTUAL =>
    simp only [wellFormedDrift] at hwf
    obtain ⟨ar, rfl⟩ := Option.isSome_iff_exists.mp hwf
    simp only [suggest_remediation, unmanagedSuggestions]
    by_cases htool : iac_tool = "terraform"
    · rw [if_pos htool]
      exact ⟨_, rfl, by simp⟩
    · rw [if_neg htool]
      exact ⟨_, rfl, by simp⟩

/-- Witness for C9 at a concrete record: an UNMANAGED_IN_ACTUAL record with
its actual resource present yields a non-empty suggestion list. -/
theorem C9_remediation_nonempty_witness :
    ∃ l, suggest_remediation
        { drift_type := DriftType.UNMANAGED_IN_ACTUAL, resource_type := "vm",
          resource_name := "n", resource_id := some "u",
          actual_resource :=
            some { id := "u", type := "vm", name := "n", provider_name := "mock" } }
        "terraform" = some l ∧ l ≠ [] :=
  C9_remediation_nonempty _ "terraform" rfl

/-- C3 counterexample: `suggest_remediation` does NOT return for every
well-typed record shape — an UNMANAGED_IN_ACTUAL record whose
`actual_resource` is null makes the terraform branch dereference
`drift_info.actual_resource.type` (remediation.py line 54) and raise
`AttributeError`, embedded as the result `none`. -/
theorem C3_totality_counterexample :
    suggest_remediation
      { drift_type := DriftType.UNMANAGED_IN_ACTUAL, resource_type := "aws_s3_bucket",
        resource_name := "bucket1", resource_id := some "b1", actual_resource := none }
      "terraform" = none := by decide

/-- C3 (amended): `compare_states` is total for every input (including both
inputs empty, where it returns `[]`); `suggest_remediation` returns normally
except exactly on UNMANAGED_IN_ACTUAL records with `iac_tool = "terraform"`
and a null `actual_resource`; and on every record actually produced by
`compare_states` it always returns normally. -/
theorem C3_totality_amended :
    (∀ (iac_resources actual_resources : List ParsedResource) (cfg : Option IgnoreConfig),
      ∃ out, compare_states iac_resources actual_resources cfg = out) ∧
    (∀ cfg : Option IgnoreConfig, compare_states [] [] cfg = []) ∧
    (∀ (drift : DriftInfo) (iac_tool : String),
      (suggest_remediation drift iac_tool).isSome ↔
        ¬(drift.drift_type = DriftType.UNMANAGED_IN_ACTUAL ∧ iac_tool = "terraform" ∧
          drift.actual_resource = none)) ∧
    (∀ (iac_resources actual_resources : List ParsedResource) (cfg : Option IgnoreConfig)
      (iac_tool : String), ∀ rec ∈ compare_states iac_resources actual_resources cfg,
      (suggest_remediation rec iac_tool).isSome) := by
  have hiff : ∀ (drift : DriftInfo) (iac_tool : String),
      (suggest_remediation drift iac_tool).isSome ↔
        ¬(drift.drift_type = DriftType.UNMANAGED_IN_ACTUAL ∧ iac_tool = "terraform" ∧
          drift.actual_resource = none) := by
    intro drift iac_tool
    obtain ⟨dt, rt, rn, rid, iacr, actr, ad, msg⟩ := drift
    cases dt
    case MISSING_IN_ACTUAL => simp [suggest_remediation]
    case MODIFIED => simp [suggest_remediation]
    case UNMANAGED_IN_ACTUAL =>
      simp only [suggest_remediation, unmanagedSuggestions]
      by_cases htool : iac_tool = "terraform"
      · rw [if_pos htool]
        cases actr with
        | none => simp [htool]
        | some ar => simp [htool]
      · rw [if_neg htool]
        simp [htool]
  refine ⟨fun _ _ _ => ⟨_, rfl⟩, fun _ => rfl, hiff, ?_⟩
  intro iac_resources actual_resources cfg iac_tool rec hrec
  rw [hiff]
  rintro ⟨hdt, _, hact⟩
  have hsome := mem_compare_states_unmanaged_actual iac_resources actual_resources cfg rec
    hrec hdt
  rw [hact] at hsome
  simp at hsome

/-- Witness for C3's amended theorem: the UNMANAGED record produced by
`compare_states` on a concrete actual-only input is accepted by
`suggest_remediation`. -/
theorem C3_totality_amended_witness :
    (suggest_remediation
      { drift_type := DriftType.UNMANAGED_IN_ACTUAL, resource_type := "vm",
        resource_name := "n", resource_id := some "u", iac_resource := none,
        actual_resource :=
          some { id := "u", type := "vm", name := "n", provider_name := "mock" },
        message := some (unmanagedMessage "u" "vm" "n") }
      "terraform").isSome :=
  C3_totality_amended.2.2.2 []
    [{ id := "u", type := "vm", name := "n", provider_name := "mock" }] none "terraform"
    _ (by decide)

/-- C4: when `tags` is a dict on both sides, tag keys present only in the
actual tags dict never produce an `AttributeDrift` (the per-tag loop iterates
desired tags only; the side conditions that no literal attribute key equals
`tags.<k>` rule out an unrelated top-level attribute that merely shares the
dotted name); and when no individual desired tag differs from its actual
counterpart, no drift is emitted for the `tags` key itself even if the two
dicts are unequal because of extra actual-only tags. -/
theorem C4_tag_additivity (iac act : List (String × Value)) (resource_type : String)
    (cfg : Option IgnoreConfig) (dt at2 : List (String × Value))
    (hiv : getAttr iac "tags" = Value.vDict dt)
    (hav : getAttr act "tags" = Value.vDict at2) :
    (∀ k, k ∈ at2.map Prod.fst → k ∉ dt.map Prod.fst →
      ("tags." ++ k) ∉ iac.map Prod.fst → ("tags." ++ k) ∉ act.map Prod.fst →
      ∀ drift ∈ compare_attributes iac act resource_type cfg,
        drift.attribute_name ≠ "tags." ++ k) ∧
    ((∀ tk tv, (tk, tv) ∈ dt → getAttr at2 tk = tv) →
      ∀ drift ∈ compare_attributes iac act resource_type cfg,
        drift.attribute_name ≠ "tags") := by
  constructor
  · intro k _ hknotin hnotiac hnotact drift hd
    rw [mem_compare_attributes] at hd
    obtain ⟨key, hkey, hdk⟩ := hd
    rcases compareKey_cases _ _ _ _ _ hdk with
      ⟨hname, _⟩ | ⟨_, dt2, at3, tk, tv, hiv2, _, hmem, _, hdrift⟩
    · rw [hname]
      intro hkk
      subst hkk
      rcases hkey with h | h
      · exact hnotiac h
      · exact hnotact h
    · rw [hdrift]
      intro hkk
      have htk : tk = k := string_append_left_cancel hkk
      subst htk
      rw [hiv] at hiv2
      have hdd : dt = dt2 := Value.vDict.inj hiv2
      subst hdd
      exact hknotin (List.mem_map.mpr ⟨(tk, tv), hmem, rfl⟩)
  · intro _ drift hd
    rw [mem_compare_attributes] at hd
    obtain ⟨key, _, hdk⟩ := hd
    rcases compareKey_cases _ _ _ _ _ hdk with
      ⟨hname, hcond⟩ | ⟨_, dt2, at3, tk, tv, _, _, _, _, hdrift⟩
    · rw [hname]
      intro hkk
      subst hkk
      exact hcond rfl dt at2 ⟨hiv, hav⟩
    · rw [hdrift]
      exact tags_prefix_ne_tags tk

/-- Witness for C4 at a concrete input: the actual-only tag `extra` produces
no drift named `tags.extra`. -/
theorem C4_tag_additivity_witness :
    ({ attribute_name := "tags." ++ "extra", iac_value := Value.vNull,
       actual_value := Value.vStr "x" } : AttributeDrift) ∉
      compare_attributes [("tags", Value.vDict [("env", Value.vStr "prod")])]
        [("tags", Value.vDict [("env", Value.vStr "prod"), ("extra", Value.vStr "x")])]
        "vm" none :=
  fun hmem =>
    (C4_tag_additivity [("tags", Value.vDict [("env", Value.vStr "prod")])]
        [("tags", Value.vDict [("env", Value.vStr "prod"), ("extra", Value.vStr "x")])]
        "vm" none [("env", Value.vStr "prod")]
        [("env", Value.vStr "prod"), ("extra", Value.vStr "x")]
        (by decide) (by decide)).1 "extra" (by decide) (by decide) (by decide) (by decide)
      _ hmem rfl

/-- C6: an attribute whose name is in the resolved ignore-list for the
resource's type, or whose name starts with an underscore, never appears in
any returned `AttributeDrift` (the side condition that the ignored name is
not itself of the form `tags.<k>` separates it from dotted per-tag drift
names, which originate from tag keys rather than attributes). -/
theorem C6_ignored_never_reported (iac act : List (String × Value)) (resource_type : String)
    (cfg : Option IgnoreConfig) (key : String)
    (hig : key ∈ currentIgnoredAttributes cfg resource_type ∨ startsWithUnderscore key = true)
    (hnotag : ∀ tk, key ≠ "tags." ++ tk) :
    ∀ drift ∈ compare_attributes iac act resource_type cfg, drift.attribute_name ≠ key := by
  intro drift hd
  rw [mem_compare_attributes] at hd
  obtain ⟨k2, _, hdk⟩ := hd
  have hni := compareKey_not_ignored _ _ _ _ _ hdk
  rcases compareKey_cases _ _ _ _ _ hdk with
    ⟨hname, _⟩ | ⟨_, dt2, at3, tk, tv, _, _, _, _, hdrift⟩
  · rw [hname]
    intro hkk
    subst hkk
    exact hni hig
  · rw [hdrift]
    intro hkk
    exact hnotag tk hkk.symm

/-- Witness for C6 at a concrete input: `arn` is in the default ignore-list of
`aws_instance`, so the wildly differing `arn` values produce no drift. -/
theorem C6_ignored_never_reported_witness :
    ({ attribute_name := "arn", iac_value := Value.vStr "a",
       actual_value := Value.vStr "b" } : AttributeDrift) ∉
      compare_attributes [("arn", Value.vStr "a")] [("arn", Value.vStr "b")]
        "aws_instance" none :=
  fun hmem =>
    C6_ignored_never_reported [("arn", Value.vStr "a")] [("arn", Value.vStr "b")]
      "aws_instance" none "arn" (Or.inl (by decide))
      (fun tk h => by
        have hlen := congrArg String.length h
        rw [String.length_append] at hlen
        have h1 : ("arn" : String).length = 3 := rfl
        have h2 : ("tags." : String).length = 5 := rfl
        omega)
      _ hmem rfl

theorem lookupKey_indexById_of_unique (resources : List ParsedResource) (i : String)
    (r : ParsedResource) (hi : i ≠ "") (hr : r ∈ resources) (hrid : r.id = i)
    (huniq : ∀ r2 ∈ resources, r2.id = i → r2 = r) :
    lookupKey (indexById resources) i = some r := by
  rw [lookupKey_indexById resources i hi]
  apply getLast?_eq_of_all_eq
  · exact List.ne_nil_of_mem (List.mem_filter.mpr ⟨hr, by simp [hrid]⟩)
  · intro x hx
    have hx2 := List.mem_filter.mp hx
    exact huniq x hx2.1 (by simpa using hx2.2)

/-- C2: when each side contains a record with the same non-empty id (that id
occurring uniquely on each side, so that "those two records" are determined)
and the two records have identical `type` and identical attribute maps, the
reconciliation output contains no drift record for that id.  The tag-dict
key-uniqueness hypothesis records that Python dict keys are unique. -/
theorem C2_no_false_positives (iac_resources actual_resources : List ParsedResource)
    (cfg : Option IgnoreConfig) (i : String) (r s : ParsedResource)
    (hi : i ≠ "")
    (hr : r ∈ iac_resources) (hrid : r.id = i)
    (hs : s ∈ actual_resources) (hsid : s.id = i)
    (hru : ∀ r2 ∈ iac_resources, r2.id = i → r2 = r)
    (hsu : ∀ s2 ∈ actual_resources, s2.id = i → s2 = s)
    (htype : r.type = s.type)
    (hattrs : r.attributes = s.attributes)
    (htags : ∀ d, getAttr r.attributes "tags" = Value.vDict d → (d.map Prod.fst).Nodup) :
    ∀ rec ∈ compare_states iac_resources actual_resources cfg, rec.resource_id ≠ some i := by
  have hlr := lookupKey_indexById_of_unique iac_resources i r hi hr hrid hru
  have hls := lookupKey_indexById_of_unique actual_resources i s hi hs hsid hsu
  have hfil : (compare_states iac_resources actual_resources cfg).filter
      (fun rec => rec.resource_id == some i) = [] := by
    rw [compare_states_filter_eq, lookupOut_some _ _ _ r hlr, lookupOut_some _ _ _ s hls,
      driftsForActualEntry_matched _ _ _ r hlr, List.append_nil,
      driftsForIacEntry_matched _ cfg i r s hls, if_neg (by simp [htype]),
      ← hattrs, compare_attributes_self r.attributes r.type cfg htags]
    simp
  intro rec hrec hid
  have hmem : rec ∈ (compare_states iac_resources actual_resources cfg).filter
      (fun rec => rec.resource_id == some i) :=
    List.mem_filter.mpr ⟨hrec, by simp [hid]⟩
  rw [hfil] at hmem
  simp at hmem

/-- Witness for C2 at a concrete input: identical id, type and attributes on
both sides (names differ), so the record claiming drift for that id cannot be
in the output. -/
theorem C2_no_false_positives_witness :
    ({ drift_type := DriftType.MODIFIED, resource_type := "vm", resource_name := "a",
       resource_id := some "x" } : DriftInfo) ∉
      compare_states
        [{ id := "x", type := "vm", name := "a", provider_name := "mock",
           attributes := [("cpu", Value.vInt 2)] }]
        [{ id := "x", type := "vm", name := "b", provider_name := "mock",
           attributes := [("cpu", Value.vInt 2)] }] none :=
  fun hmem =>
    C2_no_false_positives
      [{ id := "x", type := "vm", name := "a", provider_name := "mock",
         attributes := [("cpu", Value.vInt 2)] }]
      [{ id := "x", type := "vm", name := "b", provider_name := "mock",
         attributes := [("cpu", Value.vInt 2)] }] none "x"
      { id := "x", type := "vm", name := "a", provider_name := "mock",
        attributes := [("cpu", Value.vInt 2)] }
      { id := "x", type := "vm", name := "b", provider_name := "mock",
        attributes := [("cpu", Value.vInt 2)] }
      (by decide) (by decide) rfl (by decide) rfl (by decide) (by decide) rfl rfl
      (by
        intro d h
        have h2 : Value.vNull = Value.vDict d := h
        simp at h2)
      _ hmem rfl

/-- C1: the output is partitioned by the indexed ids — for an id in both
indices at most one record, always MODIFIED, and none exactly when the pair
has equal types and an empty attribute diff; for an id only in the desired
index exactly one MISSING_IN_ACTUAL record; for an id only in the actual
index exactly one UNMANAGED_IN_ACTUAL record; and every output record carries
the id of some index entry (no other records are produced). -/
theorem C1_partition (iac_resources actual_resources : List ParsedResource)
    (cfg : Option IgnoreConfig) (i : String) :
    (∀ r s, lookupKey (indexById iac_resources) i = some r →
      lookupKey (indexById actual_resources) i = some s →
      ((compare_states iac_resources actual_resources cfg).filter
          (fun rec => rec.resource_id == some i)).length ≤ 1 ∧
      (∀ rec ∈ compare_states iac_resources actual_resources cfg,
        rec.resource_id = some i → rec.drift_type = DriftType.MODIFIED) ∧
      (((compare_states iac_resources actual_resources cfg).filter
          (fun rec => rec.resource_id == some i)) = [] ↔
        (r.type = s.type ∧ compare_attributes r.attributes s.attributes r.type cfg = []))) ∧
    (∀ r, lookupKey (indexById iac_resources) i = some r →
      lookupKey (indexById actual_resources) i = none →
      ∃ rec, (compare_states iac_resources actual_resources cfg).filter
          (fun rec2 => rec2.resource_id == some i) = [rec] ∧
        rec.drift_type = DriftType.MISSING_IN_ACTUAL) ∧
    (∀ s, lookupKey (indexById actual_resources) i = some s →
      lookupKey (indexById iac_resources) i = none →
      ∃ rec, (compare_states iac_resources actual_resources cfg).filter
          (fun rec2 => rec2.resource_id == some i) = [rec] ∧
        rec.drift_type = DriftType.UNMANAGED_IN_ACTUAL) ∧
    (∀ rec ∈ compare_states iac_resources actual_resources cfg,
      ∃ j, rec.resource_id = some j ∧
        ((lookupKey (indexById iac_resources) j).isSome ∨
         (lookupKey (indexById actual_resources) j).isSome)) := by
  refine ⟨?_, ?_, ?_, ?_⟩
  · intro r s hr hs
    have hfe : (compare_states iac_resources actual_resources cfg).filter
        (fun rec => rec.resource_id == some i)
        = driftsForIacEntry (indexById actual_resources) cfg i r := by
      rw [compare_states_filter_eq, lookupOut_some _ _ _ r hr, lookupOut_some _ _ _ s hs,
        driftsForActualEntry_matched _ _ _ r hr, List.append_nil]
    refine ⟨?_, ?_, ?_⟩
    · rw [hfe]
      exact driftsForIacEntry_length_le _ _ _ _
    · intro rec hrec hid
      have hmf : rec ∈ driftsForIacEntry (indexById actual_resources) cfg i r := by
        rw [← hfe]
        exact List.mem_filter.mpr ⟨hrec, by simp [hid]⟩
      exact driftsForIacEntry_drift_type_matched _ cfg i r s hs rec hmf
    · rw [hfe, driftsForIacEntry_matched _ cfg i r s hs]
      by_cases ht : r.type ≠ s.type
      · rw [if_pos ht]
        constructor
        · intro h
          exact absurd h (by simp)
        · rintro ⟨h1, _⟩
          exact absurd h1 ht
      · rw [if_neg ht]
        by_cases hd : compare_attributes r.attributes s.attributes r.type cfg ≠ []
        · rw [if_pos hd]
          constructor
          · intro h
            exact absurd h (by simp)
          · rintro ⟨_, h2⟩
            exact absurd h2 hd
        · rw [if_neg hd]
          constructor
          · intro _
            exact ⟨not_not.mp ht, not_not.mp hd⟩
          · intro _
            rfl
  · intro r hr hsn
    refine ⟨{ drift_type := DriftType.MISSING_IN_ACTUAL,
              resource_type := r.type, resource_name := r.name, resource_id := some i,
              iac_resource := some r, actual_resource := none,
              message := some (missingMessage r.type r.name i) }, ?_, rfl⟩
    rw [compare_states_filter_eq, lookupOut_some _ _ _ r hr, lookupOut_none _ _ _ hsn,
      List.append_nil, driftsForIacEntry_unmatched _ cfg i r hsn]
  · intro s hs hrn
    refine ⟨{ drift_type := DriftType.UNMANAGED_IN_ACTUAL,
              resource_type := s.type, resource_name := s.name, resource_id := some i,
              iac_resource := none, actual_resource := some s,
              message := some (unmanagedMessage i s.type s.name) }, ?_, rfl⟩
    rw [compare_states_filter_eq, lookupOut_none _ _ _ hrn, List.nil_append,
      lookupOut_some _ _ _ s hs, driftsForActualEntry_unmatched _ i s hrn]
  · intro rec hrec
    simp only [compare_states, List.mem_append, List.mem_flatMap] at hrec
    rcases hrec with ⟨p, hp, hmem⟩ | ⟨p, hp, hmem⟩
    · refine ⟨p.1, driftsForIacEntry_resource_id _ cfg p.1 p.2 rec hmem, Or.inl ?_⟩
      rw [← mem_keys_iff_lookupKey]
      exact List.mem_map.mpr ⟨p, hp, rfl⟩
    · refine ⟨p.1, driftsForActualEntry_resource_id _ p.1 p.2 rec hmem, Or.inr ?_⟩
      rw [← mem_keys_iff_lookupKey]
      exact List.mem_map.mpr ⟨p, hp, rfl⟩

/-- Witness for C1 at a concrete input: identical matched pair produces no
record for its id. -/
theorem C1_partition_witness :
    (compare_states [{ id := "x", type := "vm", name := "a", provider_name := "mock" }]
        [{ id := "x", type := "vm", name := "b", provider_name := "mock" }] none).filter
        (fun rec => rec.resource_id == some "x") = [] :=
  ((C1_partition [{ id := "x", type := "vm", name := "a", provider_name := "mock" }]
      [{ id := "x", type := "vm", name := "b", provider_name := "mock" }] none "x").1
    { id := "x", type := "vm", name := "a", provider_name := "mock" }
    { id := "x", type := "vm", name := "b", provider_name := "mock" }
    (by decide) (by decide)).2.2.mpr ⟨rfl, by decide⟩

/-- C10: records with empty ids aside, the id-keyed index maps each id to the
LAST record in the input list carrying that id (earlier duplicates are
overwritten by the dict comprehension), and at most one drift record is ever
produced for any given id. -/
theorem C10_duplicate_ids (iac_resources actual_resources : List ParsedResource)
    (cfg : Option IgnoreConfig) (i : String) (hi : i ≠ "") :
    lookupKey (indexById iac_resources) i
        = (iac_resources.filter (fun r => r.id == i)).getLast? ∧
    lookupKey (indexById actual_resources) i
        = (actual_resources.filter (fun r => r.id == i)).getLast? ∧
    ((compare_states iac_resources actual_resources cfg).filter
        (fun rec => rec.resource_id == some i)).length ≤ 1 := by
  refine ⟨lookupKey_indexById _ i hi, lookupKey_indexById _ i hi, ?_⟩
  rw [compare_states_filter_eq, List.length_append]
  cases hD : lookupKey (indexById iac_resources) i with
  | some r =>
    rw [lookupOut_some _ _ _ r hD]
    cases hA : lookupKey (indexById actual_resources) i with
    | some s =>
      rw [lookupOut_some _ _ _ s hA, driftsForActualEntry_matched _ _ _ r hD]
      simpa using driftsForIacEntry_length_le (indexById actual_resources) cfg i r
    | none =>
      rw [lookupOut_none _ _ _ hA]
      simpa using driftsForIacEntry_length_le (indexById actual_resources) cfg i r
  | none =>
    rw [lookupOut_none _ _ _ hD]
    cases hA : lookupKey (indexById actual_resources) i with
    | some s =>
      rw [lookupOut_some _ _ _ s hA, driftsForActualEntry_unmatched _ i s hD]
      simp
    | none =>
      rw [lookupOut_none _ _ _ hA]
      simp

/-- Witness for C10 at a concrete input with a duplicated id: the index holds
the later record and at most one drift record is produced for the id. -/
theorem C10_duplicate_ids_witness :
    lookupKey (indexById
        [{ id := "x", type := "vm", name := "first", provider_name := "mock" },
         { id := "x", type := "vm", name := "second", provider_name := "mock" }]) "x"
      = (([{ id := "x", type := "vm", name := "first", provider_name := "mock" },
           { id := "x", type := "vm", name := "second", provider_name := "mock" }]
            : List ParsedResource).filter (fun r => r.id == "x")).getLast? ∧
    lookupKey (indexById ([] : List ParsedResource)) "x"
      = (([] : List ParsedResource).filter (fun r => r.id == "x")).getLast? ∧
    ((compare_states
        [{ id := "x", type := "vm", name := "first", provider_name := "mock" },
         { id := "x", type := "vm", name := "second", provider_name := "mock" }]
        [] none).filter (fun rec => rec.resource_id == some "x")).length ≤ 1 :=
  C10_duplicate_ids
    [{ id := "x", type := "vm", name := "first", provider_name := "mock" },
     { id := "x", type := "vm", name := "second", provider_name := "mock" }]
    [] none "x" (by decide)
